import Mathlib

/-!
Shallow embedding of the core logic of the Mero revenue-analysis scripts
(`daily_revenue_analysis.py`, `historical_revenue_analysis.py`,
`excel_summary_enhancer.py`): service-name category classification,
appointment-price resolution, deduplicating merge into the persisted store,
category percentage aggregation, and the 3-month revenue forecast.
Monetary values are modelled as rationals, Python dict lookups with defaults
as `Option` accessors, and Python `sorted` as a sorted permutation.
-/

namespace Mero

/-! ### Case-insensitive substring matching

`re.search(pattern, service_name, re.IGNORECASE)` where every pattern is an
alternation of literal ASCII substrings (the only character classes, in the
`Ox[iy]gen[ae]r[ae]` pattern, are expanded into all eight literal
alternatives).  Case-insensitive matching of an ASCII literal is lowering
both sides and testing substring containment. -/

/-- Lower-cased character list of a string. -/
def lcs (s : String) : List Char := s.data.map Char.toLower

/-- `chPre pat l`: `pat` starts `l`. -/
def chPre : List Char → List Char → Bool
  | [], _ => true
  | _ :: _, [] => false
  | c :: cs, d :: ds => c = d && chPre cs ds

/-- `chSub pat l`: `pat` occurs contiguously inside `l`. -/
def chSub (pat : List Char) : List Char → Bool
  | [] => chPre pat []
  | h :: hs => chPre pat (h :: hs) || chSub pat hs

/-- Case-insensitive containment of the literal `pat` in `hay`. -/
def containsCI (hay pat : String) : Bool := chSub (lcs pat) (lcs hay)

/-- One regex pattern = a list of literal alternatives; `re.search` succeeds
iff some alternative occurs in the service name (case-insensitively). -/
def matchesAlt (alts : List String) (s : String) : Bool :=
  alts.any (fun p => containsCI s p)

/-- The ordered rule table of `extract_category` in
`daily_revenue_analysis.py` (lines 30-40). -/
def dailyRules : List (String × List String) :=
  [("Pensat", ["Pensat", "ProBrows"]),
   ("Epilat", ["Epilat"]),
   ("Oxygenera", ["Oxigenara", "Oxigenare", "Oxigenera", "Oxigenere",
                  "Oxygenara", "Oxygenare", "Oxygenera", "Oxygenere", "Oxygen"]),
   ("Laminare", ["Laminare"]),
   ("Microneedling", ["Microneedling", "DermaPen"]),
   ("ProBrows", ["ProBrows"]),
   ("Pure Solution", ["Pure Solution"]),
   ("Peeling", ["Peeling"]),
   ("Tratament", ["Tratament"])]

/-- The ordered rule table of `extract_category` in
`historical_revenue_analysis.py` (lines 29-40). -/
def histRules : List (String × List String) :=
  [("Pensat", ["Pensat"]),
   ("ProBrows", ["ProBrows"]),
   ("Epilat", ["Epilat"]),
   ("Oxygenera", ["Oxigenara", "Oxigenare", "Oxigenera", "Oxigenere",
                  "Oxygenara", "Oxygenare", "Oxygenera", "Oxygenere", "Oxygen"]),
   ("Laminare", ["Laminare"]),
   ("Microneedling", ["Microneedling"]),
   ("DermaPen", ["DermaPen"]),
   ("Peeling", ["Peeling"]),
   ("Tratament", ["Tratament"]),
   ("Pure Solution", ["Pure Solution"])]

/-- `extract_category`: first matching rule's category, else `"Other"`. -/
def extractCat (rules : List (String × List String)) (s : String) : String :=
  ((rules.find? (fun r => matchesAlt r.2 s)).map Prod.fst).getD "Other"

/-- `extract_category` of `daily_revenue_analysis.py`. -/
def extractCategoryDaily (s : String) : String := extractCat dailyRules s

/-- `extract_category` of `historical_revenue_analysis.py`. -/
def extractCategoryHist (s : String) : String := extractCat histRules s

/-- The enumerated category set of the spec (with `PureSolution` rendered as
the source's `"Pure Solution"`). -/
def allowedCategories : List String :=
  ["Pensat", "Epilat", "Oxygenera", "Laminare", "Microneedling", "ProBrows",
   "Pure Solution", "Peeling", "Tratament", "Other"]

/-- Every classifier result is `"Other"` or the category of some rule. -/
theorem extractCat_mem (rules : List (String × List String)) (s : String) :
    extractCat rules s ∈ "Other" :: rules.map Prod.fst := by
  unfold extractCat
  cases h : rules.find? (fun r => matchesAlt r.2 s) with
  | none => simp
  | some r =>
    simp only [Option.map_some', Option.getD_some, List.mem_cons]
    exact Or.inr (List.mem_map_of_mem Prod.fst (List.mem_of_find?_eq_some h))

/-- C4 (counterexample): the historical classifier maps `"DermaPen"` to the
category `"DermaPen"`, which is not a member of the spec's enumerated
category set, so the claimed codomain is wrong for that classifier. -/
theorem c4_counterexample :
    extractCategoryHist "DermaPen" = "DermaPen" ∧
      "DermaPen" ∉ allowedCategories := by
  constructor
  · decide
  · decide

/-- C4 (amended): both classifiers are total and deterministic and return the
first matching rule's category, else `"Other"`; the daily classifier's result
always lies in the spec's enumerated set, while the historical classifier's
result lies in that set extended with the extra category `"DermaPen"`. -/
theorem c4_classifier_total_firstMatch (s : String) :
    extractCategoryDaily s ∈ allowedCategories ∧
    extractCategoryHist s ∈ "DermaPen" :: allowedCategories ∧
    (∀ r, dailyRules.find? (fun ru => matchesAlt ru.2 s) = some r →
      extractCategoryDaily s = r.1) ∧
    (dailyRules.find? (fun ru => matchesAlt ru.2 s) = none →
      extractCategoryDaily s = "Other") ∧
    (∀ r, histRules.find? (fun ru => matchesAlt ru.2 s) = some r →
      extractCategoryHist s = r.1) ∧
    (histRules.find? (fun ru => matchesAlt ru.2 s) = none →
      extractCategoryHist s = "Other") := by
  refine ⟨?_, ?_, ?_, ?_, ?_, ?_⟩
  · have hsub : "Other" :: dailyRules.map Prod.fst ⊆ allowedCategories := by decide
    exact hsub (extractCat_mem dailyRules s)
  · have hsub : "Other" :: histRules.map Prod.fst ⊆ "DermaPen" :: allowedCategories := by
      decide
    exact hsub (extractCat_mem histRules s)
  · intro r h
    simp [extractCategoryDaily, extractCat, h]
  · intro h
    simp [extractCategoryDaily, extractCat, h]
  · intro r h
    simp [extractCategoryHist, extractCat, h]
  · intro h
    simp [extractCategoryHist, extractCat, h]

/-- C4 (witness): the amended statement applied at `"Epilat definitiv"`,
whose first matching rule is the `"Epilat"` rule in both tables. -/
theorem c4_classifier_total_firstMatch_witness :
    extractCategoryDaily "Epilat definitiv" = "Epilat" ∧
      extractCategoryHist "Epilat definitiv" = "Epilat" ∧
      extractCategoryDaily "Epilat definitiv" ∈ allowedCategories := by
  refine ⟨?_, ?_, (c4_classifier_total_firstMatch "Epilat definitiv").1⟩
  · exact (c4_classifier_total_firstMatch "Epilat definitiv").2.2.1
      ("Epilat", ["Epilat"]) (by decide)
  · exact (c4_classifier_total_firstMatch "Epilat definitiv").2.2.2.2.1
      ("Epilat", ["Epilat"]) (by decide)

/-! ### Appointment parser: price resolution

`parse_appointment` (identical in lines 65-79 of `daily_revenue_analysis.py`
and lines 87-101 of `historical_revenue_analysis.py`).  Python dicts with
permissive `.get` lookups become records of `Option` fields with `getD`
defaults. -/

/-- `customPrice.fixed.amount`: `{value, scale}` with both sub-keys
optional (`amount_data.get("value", 0)`, `amount_data.get("scale", 0)`). -/
structure Amount where
  value : Option ℚ
  scale : Option ℕ
deriving DecidableEq

/-- `customPrice.fixed`: the `amount` sub-dict may be absent. -/
structure FixedBlock where
  amount : Option Amount
deriving DecidableEq

/-- The `customPrice` dict: `type` and `fixed` keys, both optional. -/
structure CustomPrice where
  ptype : Option String
  fixed : Option FixedBlock
deriving DecidableEq

/-- The simple `price` dict: `{type, fixed}`, both keys optional
(`price_data.get("type")`, `price_data.get("fixed", 0)`). -/
structure SimplePrice where
  ptype : Option ℤ
  fixed : Option ℚ
deriving DecidableEq

/-- One entry of `payload["bookedServices"]`: a name plus the two optional
price encodings (key present = `some`). -/
structure Service where
  name : String
  customPrice : Option CustomPrice
  price : Option SimplePrice
deriving DecidableEq

/-- The `value` the code reads for a custom price
(`custom_price.get("fixed", \x7b\x7d).get("amount", \x7b\x7d).get("value", 0)`). -/
def customValue (cp : CustomPrice) : ℚ :=
  ((cp.fixed.bind FixedBlock.amount).bind Amount.value).getD 0

/-- The `scale` the code reads for a custom price (default 0). -/
def customScale (cp : CustomPrice) : ℕ :=
  ((cp.fixed.bind FixedBlock.amount).bind Amount.scale).getD 0

/-- The price-resolution block of `parse_appointment` (lines 67-79):
`if "customPrice" in service: ... elif "price" in service: ...`. -/
def resolvePrice (s : Service) : ℚ :=
  match s.customPrice with
  | some cp =>
    if cp.ptype = some "Fixed" then
      let v := customValue cp
      let sc := customScale cp
      if 0 < sc then v / 10 ^ sc else v
    else 0
  | none =>
    match s.price with
    | some p => if p.ptype = some 1 then p.fixed.getD 0 else 0
    | none => 0

/-- A `customPrice` key of fixed-amount type is present. -/
def hasCustomFixed (s : Service) : Bool :=
  match s.customPrice with
  | some cp => cp.ptype = some "Fixed"
  | none => false

/-- A simple `price` key of the fixed type (`type == 1`) is present. -/
def hasSimpleFixed (s : Service) : Bool :=
  match s.price with
  | some p => p.ptype = some 1
  | none => false

/-- The fixed amount of the simple `price` key (`price_data.get("fixed", 0)`). -/
def simpleFixedAmount (s : Service) : ℚ :=
  match s.price with
  | some p => p.fixed.getD 0
  | none => 0

/-- Modelled from the SPEC'S WORDS for comparison (claim C3's precedence
chain): if a custom price of fixed-amount type is present use
`value / 10^scale` (value unchanged when scale is 0); ELSE if a simple price
of the fixed type is present use its fixed amount; else 0. -/
def specPriceResolution (s : Service) : ℚ :=
  if hasCustomFixed s then
    match s.customPrice with
    | some cp =>
      if 0 < customScale cp then customValue cp / 10 ^ customScale cp
      else customValue cp
    | none => 0
  else if hasSimpleFixed s then simpleFixedAmount s
  else 0

/-- A service carrying a `customPrice` of a non-fixed type (`"Percent"`)
together with a well-formed simple fixed price of 100. -/
def svcPercentPlusSimple : Service :=
  { name := "Pensat"
    customPrice := some { ptype := some "Percent", fixed := none }
    price := some { ptype := some 1, fixed := some 100 } }

/-- The custom-price dict of the spec's worked example:
`{type: "Fixed", fixed: {amount: {value: 15000, scale: 2}}}`. -/
def cp15000 : CustomPrice :=
  { ptype := some "Fixed"
    fixed := some { amount := some { value := some 15000, scale := some 2 } } }

/-- The spec's worked example service: `customPrice.fixed.amount =
{value: 15000, scale: 2}`. -/
def svcCustom15000 : Service :=
  { name := "Oxygenera Pro"
    customPrice := some cp15000
    price := none }

/-- C3 (counterexample): on a service whose `customPrice` key is present but
of non-fixed type and which also carries a well-formed simple fixed price,
the code yields 0 while the claim's precedence chain yields the simple fixed
amount 100. -/
theorem c3_counterexample :
    resolvePrice svcPercentPlusSimple = 0 ∧
      specPriceResolution svcPercentPlusSimple = 100 ∧
      resolvePrice svcPercentPlusSimple ≠ specPriceResolution svcPercentPlusSimple := by
  refine ⟨rfl, rfl, ?_⟩
  intro h
  rw [show resolvePrice svcPercentPlusSimple = 0 from rfl,
    show specPriceResolution svcPercentPlusSimple = 100 from rfl] at h
  norm_num at h

/-- C3 (amended): if a custom price of fixed-amount type is present the
price is `value / 10^scale` (the value unchanged when scale is 0, and the
uniform formula `value / 10^scale` holds in every case); if the
`customPrice` key is absent and a simple price of the fixed type is present
the price is its fixed amount; if neither branch applies the price is 0.
The simple-price branch requires the `customPrice` key to be absent.  The
spec's worked example `{value: 15000, scale: 2}` yields price 150. -/
theorem c3_price_resolution (s : Service) :
    (∀ cp, s.customPrice = some cp → cp.ptype = some "Fixed" →
      resolvePrice s = customValue cp / 10 ^ customScale cp) ∧
    (s.customPrice = none → hasSimpleFixed s = true →
      resolvePrice s = simpleFixedAmount s) ∧
    (s.customPrice = none → hasSimpleFixed s = false → resolvePrice s = 0) ∧
    resolvePrice svcCustom15000 = 150 := by
  refine ⟨?_, ?_, ?_, ?_⟩
  · intro cp hcp hty
    rcases Nat.eq_zero_or_pos (customScale cp) with h0 | hpos
    · simp [resolvePrice, hcp, hty, h0]
    · simp [resolvePrice, hcp, hty, hpos.ne', hpos]
  · intro hnone hs
    rcases hp : s.price with _ | p
    · simp [hasSimpleFixed, hp] at hs
    · simp only [hasSimpleFixed, hp, decide_eq_true_eq] at hs
      simp [resolvePrice, hnone, hp, simpleFixedAmount, hs]
  · intro hnone hs
    rcases hp : s.price with _ | p
    · simp [resolvePrice, hnone, hp]
    · simp only [hasSimpleFixed, hp, decide_eq_false_iff_not] at hs
      simp [resolvePrice, hnone, hp, hs]
  · show (15000 : ℚ) / 10 ^ 2 = 150
    norm_num

/-- C3 (witness): the amended statement applied to the worked example
service and to a service with neither price encoding. -/
theorem c3_price_resolution_witness :
    resolvePrice svcCustom15000 = customValue cp15000 / 10 ^ customScale cp15000 ∧
      resolvePrice { name := "x", customPrice := none, price := none } = 0 := by
  constructor
  · exact (c3_price_resolution svcCustom15000).1 _ rfl rfl
  · exact (c3_price_resolution { name := "x", customPrice := none, price := none }).2.2.1
      rfl rfl

/-- C10: branch selection is by key presence: whenever the `customPrice` key
is present but its type is not `"Fixed"`, the price is 0 even if a
well-formed simple fixed price is also present; and when the type is
`"Fixed"` but the nested amount is absent the price is likewise 0. -/
theorem c10_customPrice_key_shadows_simple_price (s : Service) (cp : CustomPrice) :
    (s.customPrice = some cp → cp.ptype ≠ some "Fixed" → resolvePrice s = 0) ∧
    (s.customPrice = some cp → cp.ptype = some "Fixed" →
      cp.fixed.bind FixedBlock.amount = none → resolvePrice s = 0) := by
  constructor
  · intro hcp hty
    simp [resolvePrice, hcp, hty]
  · intro hcp hty hamt
    simp [resolvePrice, hcp, hty, customValue, customScale, hamt]

/-- C10 (witness): the theorem applied to the concrete service with a
`"Percent"`-typed custom price and a well-formed simple fixed price of 100. -/
theorem c10_customPrice_key_shadows_simple_price_witness :
    resolvePrice svcPercentPlusSimple = 0 ∧
      hasSimpleFixed svcPercentPlusSimple = true := by
  refine ⟨?_, by decide⟩
  exact (c10_customPrice_key_shadows_simple_price svcPercentPlusSimple
    { ptype := some "Percent", fixed := none }).1 rfl (by decide)

/-! ### Deduplicating merge into the persisted store

`load_existing_appointments` builds the set of identity keys
`date|client|service` of the rows already in the Raw Data sheet; `run`
(lines 453-459) keeps only captured appointments whose key is absent from
that set; `update_excel_file` (lines 192-201) appends the survivors sorted
by date.  Python's stable `sorted` is modelled as `List.insertionSort` by
date (a sorted permutation; no claim depends on stability). -/

/-- One flat appointment record / one Raw Data row. -/
structure Appt where
  date : String
  client : String
  service : String
  category : String
  price : ℚ
deriving DecidableEq

/-- The identity key `f"{appt['date']}|{appt['client']}|{appt['service']}"`. -/
def akey (a : Appt) : String := a.date ++ "|" ++ a.client ++ "|" ++ a.service

/-- The key set `load_existing_appointments` extracts from a store. -/
def storeKeys (store : List Appt) : Finset String := (store.map akey).toFinset

/-- The filtering loop of `run`: keep captured appointments whose key is
not in `existing_keys`. -/
def merge (existingKeys : Finset String) (captured : List Appt) : List Appt :=
  captured.filter (fun a => decide (akey a ∉ existingKeys))

/-- Lexicographic code-point comparison of character lists: Python's string
ordering on the `YYYY-MM-DD` date keys. -/
def chLe : List Char → List Char → Bool
  | [], _ => true
  | _ :: _, [] => false
  | c :: cs, d :: ds => if c = d then chLe cs ds else decide (c < d)

/-- `sorted(new_appointments, key=lambda x: x["date"])`. -/
def sortByDate (l : List Appt) : List Appt :=
  l.insertionSort (fun a b => chLe a.date.data b.date.data)

/-- `update_excel_file`: append the new appointments, sorted by date, to
the Raw Data rows. -/
def updateStore (store newAppointments : List Appt) : List Appt :=
  store ++ sortByDate newAppointments

/-- One `run` of the daily script over the store: filter the captured batch
against the store's keys, then append the survivors sorted by date. -/
def runMerge (store captured : List Appt) : List Appt :=
  updateStore store (merge (storeKeys store) captured)

/-- Key-uniqueness invariant of the store: no two rows share an identity key. -/
def uniqKeys (store : List Appt) : Prop := (store.map akey).Nodup

instance (store : List Appt) : Decidable (uniqKeys store) := by
  unfold uniqKeys; infer_instance

/-- A sample appointment used in concrete merge scenarios. -/
def apptA : Appt :=
  { date := "2024-01-05", client := "Ana Pop", service := "Epilat",
    category := "Epilat", price := 100 }

/-- A second sample appointment with a different identity key. -/
def apptB : Appt :=
  { date := "2024-01-06", client := "Ana Pop", service := "Pensat",
    category := "Pensat", price := 50 }

/-- C1 (counterexample): merging a captured batch that contains the same
appointment twice into the empty (hence key-unique) store produces a store
with two rows sharing an identity key: the filter tests only against the
keys persisted before the run, never against the batch itself. -/
theorem c1_counterexample :
    uniqKeys ([] : List Appt) ∧ ¬ uniqKeys (runMerge [] [apptA, apptA]) := by
  constructor
  · decide
  · decide

/-- The merged sublist keys avoid the existing keys. -/
theorem akey_merge_not_mem {keys : Finset String} {captured : List Appt}
    {a : Appt} (ha : a ∈ merge keys captured) : akey a ∉ keys := by
  have := List.of_mem_filter ha
  simpa using this

/-- C1 (amended): whenever the persisted store is key-unique and the
captured batch itself contains no two appointments with the same identity
key, the store obtained by a run (filter against existing keys, then append
sorted by date) is still key-unique.  (Without the batch-distinctness
hypothesis the claim fails, see the counterexample.) -/
theorem c1_merge_preserves_uniqKeys (store captured : List Appt)
    (hstore : uniqKeys store) (hcap : (captured.map akey).Nodup) :
    uniqKeys (runMerge store captured) := by
  unfold runMerge updateStore uniqKeys
  rw [List.map_append, List.nodup_append]
  have hperm : (sortByDate (merge (storeKeys store) captured)).Perm
      (merge (storeKeys store) captured) :=
    List.perm_insertionSort _ _
  have hpermMap : ((sortByDate (merge (storeKeys store) captured)).map akey).Perm
      ((merge (storeKeys store) captured).map akey) := hperm.map akey
  refine ⟨hstore, ?_, ?_⟩
  · -- keys of the sorted merged batch are nodup: sublist of the batch keys
    refine hpermMap.nodup_iff.mpr ?_
    exact hcap.sublist (List.Sublist.map akey (List.filter_sublist captured))
  · -- disjointness: merged keys were filtered out of the store's keys
    intro k hk1 hk2
    rw [List.mem_map] at hk2
    obtain ⟨a, ha, rfl⟩ := hk2
    have ha' : a ∈ merge (storeKeys store) captured := (hperm.mem_iff).mp ha
    have : akey a ∉ storeKeys store := akey_merge_not_mem ha'
    exact this (by simpa [storeKeys] using hk1)

/-- C1 (witness): the amended statement at a store holding `apptA` and a
batch capturing `apptA` again together with the new `apptB`. -/
theorem c1_merge_preserves_uniqKeys_witness :
    uniqKeys [apptA] ∧ ([apptA, apptB].map akey).Nodup ∧
      uniqKeys (runMerge [apptA] [apptA, apptB]) :=
  ⟨by decide, by decide,
    c1_merge_preserves_uniqKeys [apptA] [apptA, apptB] (by decide) (by decide)⟩

/-- C2: merge is idempotent: merging the same captured batch a second time
against the union of the original key set and the keys of the first merge's
output yields the empty list. -/
theorem c2_merge_idempotent (keys : Finset String) (captured : List Appt) :
    merge (keys ∪ ((merge keys captured).map akey).toFinset) captured = [] := by
  rw [merge, List.filter_eq_nil_iff]
  intro a ha
  simp only [decide_eq_true_eq, Finset.mem_union, List.mem_toFinset, not_not]
  by_cases hk : akey a ∈ keys
  · exact Or.inl hk
  · refine Or.inr (List.mem_map_of_mem akey ?_)
    rw [merge, List.mem_filter]
    exact ⟨ha, by simpa using hk⟩

/-! ### Decimal rounding

Python's `round(x, 2)` and the `f"{p:.1f}"` display round to the nearest
multiple of 10^-k with ties to even.  Modelled exactly over ℚ. -/

/-- Round to the nearest integer, ties to even. -/
def roundHalfEven (x : ℚ) : ℤ :=
  if x - ⌊x⌋ < 1/2 then ⌊x⌋
  else if 1/2 < x - ⌊x⌋ then ⌊x⌋ + 1
  else if ⌊x⌋ % 2 = 0 then ⌊x⌋ else ⌊x⌋ + 1

theorem roundHalfEven_abs_sub (x : ℚ) : |(roundHalfEven x : ℚ) - x| ≤ 1/2 := by
  have h0 : (⌊x⌋ : ℚ) ≤ x := Int.floor_le x
  have h1 : x < ⌊x⌋ + 1 := Int.lt_floor_add_one x
  unfold roundHalfEven
  split_ifs with hr1 hr2 hpar <;>
    (rw [abs_le]; constructor <;> push_cast <;> linarith)

theorem roundHalfEven_ge_floor (x : ℚ) : ⌊x⌋ ≤ roundHalfEven x := by
  unfold roundHalfEven; split_ifs <;> omega

theorem roundHalfEven_le_floor_add_one (x : ℚ) : roundHalfEven x ≤ ⌊x⌋ + 1 := by
  unfold roundHalfEven; split_ifs <;> omega

theorem roundHalfEven_mono {x y : ℚ} (hxy : x ≤ y) :
    roundHalfEven x ≤ roundHalfEven y := by
  have hf : ⌊x⌋ ≤ ⌊y⌋ := Int.floor_mono hxy
  rcases lt_or_eq_of_le hf with hlt | heq
  · have h1 := roundHalfEven_le_floor_add_one x
    have h2 := roundHalfEven_ge_floor y
    omega
  · have hr : x - ⌊x⌋ ≤ y - ⌊y⌋ := by
      rw [← heq]; linarith
    unfold roundHalfEven
    rw [← heq]
    split_ifs <;> first | omega | linarith

/-- `round(x, 2)`. -/
def round2 (q : ℚ) : ℚ := (roundHalfEven (100 * q) : ℚ) / 100

theorem round2_mono {q r : ℚ} (h : q ≤ r) : round2 q ≤ round2 r := by
  unfold round2
  have : roundHalfEven (100 * q) ≤ roundHalfEven (100 * r) :=
    roundHalfEven_mono (by linarith)
  have hc : (roundHalfEven (100 * q) : ℚ) ≤ roundHalfEven (100 * r) := by
    exact_mod_cast this
  linarith

/-- One-decimal display rounding of a percentage (`f"{percent:.1f}%"`). -/
def dpct (p : ℚ) : ℚ := (roundHalfEven (10 * p) : ℚ) / 10

theorem dpct_abs_sub (p : ℚ) : |dpct p - p| ≤ 1/20 := by
  unfold dpct
  have h := roundHalfEven_abs_sub (10 * p)
  rw [abs_le] at h ⊢
  constructor <;> [linarith; linarith]

/-! ### Forecast engine

`create_forecast_sheet` of `excel_summary_enhancer.py` (lines 601-778).
`np.median` / pandas `.median()` sort and take the middle element (or the
average of the two middle elements), `.tail(n)` takes the last
`min(n, length)` elements, `.mean()` divides the sum by the length.
Forecast-month labels come from the wall clock and are outside the model;
the months-ahead index of the three generated rows is always 1, 2, 3. -/

/-- `np.median` / pandas `Series.median`. -/
def npMedian (l : List ℚ) : ℚ :=
  let s := l.insertionSort (· ≤ ·)
  let n := s.length
  if n % 2 = 1 then s.getD (n / 2) 0
  else (s.getD (n / 2 - 1) 0 + s.getD (n / 2) 0) / 2

/-- pandas `.tail(n)`: the last `min(n, length)` elements. -/
def lastN (n : ℕ) (l : List ℚ) : List ℚ := l.drop (l.length - n)

/-- pandas `.mean()`. -/
def listMean (l : List ℚ) : ℚ := l.sum / l.length

/-- The stable period: `monthly_data.tail(min(9, len(monthly_data)))`. -/
def stablePeriod (l : List ℚ) : List ℚ := lastN 9 l

/-- The surviving month-over-month growth ratios of the stable period
(lines 661-668): consecutive pairs with positive predecessor, keeping the
ratio only when `abs(growth) < 0.3`. -/
def growthSurvivors (l : List ℚ) : List ℚ :=
  ((stablePeriod l).zip (stablePeriod l).tail).filterMap (fun p =>
    if 0 < p.1 then
      let g := (p.2 - p.1) / p.1
      if |g| < 3/10 then some g else none
    else none)

/-- `max(min(median_growth, 0.03), -0.03)`. -/
def clampGrowth (g : ℚ) : ℚ := max (min g (3/100)) (-(3/100))

/-- The applied growth rate (lines 670-683): clamped median of the
surviving ratios when at least 3 survive, else the coarse last-3 vs last-6
average heuristic. -/
def appliedGrowth (l : List ℚ) : ℚ :=
  if 3 ≤ (growthSurvivors l).length then clampGrowth (npMedian (growthSurvivors l))
  else if listMean (lastN 6 l) < listMean (lastN 3 l) then 1/100
  else if listMean (lastN 3 l) < listMean (lastN 6 l) * (95/100) then -(1/100)
  else 0

/-- One forecast month (lines 726-751): scenario multipliers by sign of the
growth rate, the ordering clamp toward Moderate, and 2-decimal rounding.
`m` is the months-ahead index (1, 2 or 3 in the generated rows). -/
def forecastRow (baseline g : ℚ) (m : ℕ) : ℚ × ℚ × ℚ :=
  let cm := if 0 ≤ g then (95/100 : ℚ) else 1 + g * m * (6/5)
  let mm := if 0 ≤ g then 1 + g * m else 1
  let om := if 0 ≤ g then 1 + g * m * (3/2) else (51/50) ^ m
  let c := baseline * cm
  let mo := baseline * mm
  let o := baseline * om
  (round2 (min c mo), round2 mo, round2 (max o mo))

/-- One monthly row of the grouped data fed to the forecast: year-month
label, summed revenue, booking count. -/
structure MonthRow where
  month : String
  revenue : ℚ
  bookings : ℚ
deriving DecidableEq

/-- Partial-month filtering (lines 620-642): with at least 3 months, keep
months whose bookings reach 50% of the median booking count; if fewer than
3 survive, drop only the first month instead. -/
def filterPartial (rows : List MonthRow) : List MonthRow :=
  if 3 ≤ rows.length then
    let medB := npMedian (rows.map MonthRow.bookings)
    let kept := rows.filter (fun r => decide (medB * (1/2) ≤ r.bookings))
    if 3 ≤ kept.length then kept else rows.tail
  else rows

/-- The three possible outcomes of `create_forecast_sheet`: the explicit
`None` return with the insufficient-data warning, the `UnboundLocalError`
raised when `median_growth` is read in the summary although only 1 or 2
growth ratios survived, and a successful forecast (three scenario rows plus
the applied growth rate). -/
inductive ForecastOutcome where
  | insufficientData
  | nameError
  | ok (rows : List (ℚ × ℚ × ℚ)) (appliedRate : ℚ)
deriving DecidableEq

/-- `create_forecast_sheet` after partial-month filtering: the 6-month
guard, then the three forecast rows from the stable-period median baseline
and the applied growth rate. -/
def createForecast (rows : List MonthRow) : ForecastOutcome :=
  let md := filterPartial rows
  if 6 ≤ md.length then
    let revs := md.map MonthRow.revenue
    let k := (growthSurvivors revs).length
    if 1 ≤ k ∧ k < 3 then ForecastOutcome.nameError
    else ForecastOutcome.ok
      ((List.range 3).map (fun j =>
        forecastRow (npMedian (stablePeriod revs)) (appliedGrowth revs) (j + 1)))
      (appliedGrowth revs)
  else ForecastOutcome.insufficientData

/-- C5: every generated forecast month satisfies Conservative ≤ Moderate ≤
Optimistic, under both multiplier branches: the code clamps Conservative to
`min(c, moderate)` and Optimistic to `max(o, moderate)` before the monotone
2-decimal rounding, for every baseline, growth rate and months-ahead index. -/
theorem c5_forecast_scenario_ordering (baseline g : ℚ) (m : ℕ) :
    (forecastRow baseline g m).1 ≤ (forecastRow baseline g m).2.1 ∧
      (forecastRow baseline g m).2.1 ≤ (forecastRow baseline g m).2.2 := by
  unfold forecastRow
  constructor
  · exact round2_mono (min_le_right _ _)
  · exact round2_mono (le_max_right _ _)

/-- C6: with at least 6 months of data, every surviving month-over-month
ratio has absolute value below 30% (outliers are discarded); with at least 3
survivors the applied growth rate is their median clamped to ±3%; with
fewer survivors it is +1% when the last-3-month average exceeds the
last-6-month average, −1% when it is more than 5% below it, else 0%; and in
every case the applied growth rate lies within [−3%, +3%]. -/
theorem c6_applied_growth_bounded (l : List ℚ) (_hlen : 6 ≤ l.length) :
    (∀ g ∈ growthSurvivors l, |g| < 3/10) ∧
    (3 ≤ (growthSurvivors l).length →
      appliedGrowth l = clampGrowth (npMedian (growthSurvivors l))) ∧
    ((growthSurvivors l).length < 3 →
      appliedGrowth l =
        if listMean (lastN 6 l) < listMean (lastN 3 l) then 1/100
        else if listMean (lastN 3 l) < listMean (lastN 6 l) * (95/100) then -(1/100)
        else 0) ∧
    |appliedGrowth l| ≤ 3/100 := by
  refine ⟨?_, ?_, ?_, ?_⟩
  · intro g hg
    rw [growthSurvivors, List.mem_filterMap] at hg
    obtain ⟨p, _, hp⟩ := hg
    by_cases h1 : 0 < p.1
    · simp only [h1, if_true] at hp
      by_cases h2 : |(p.2 - p.1) / p.1| < 3/10
      · simp only [h2, if_true, Option.some_inj] at hp
        rw [← hp]; exact h2
      · simp [h2] at hp
    · simp [h1] at hp
  · intro h; simp [appliedGrowth, h]
  · intro h
    rw [appliedGrowth, if_neg (by omega)]
  · rw [appliedGrowth]
    split_ifs with h1 h2 h3
    · rw [clampGrowth, abs_le]
      refine ⟨le_max_right _ _, max_le (min_le_right _ _) (by norm_num)⟩
    · rw [abs_le]; constructor <;> norm_num
    · rw [abs_le]; constructor <;> norm_num
    · rw [abs_le]; constructor <;> norm_num

/-- C6 (witness): the theorem applied to the spec's 9-month example series. -/
theorem c6_applied_growth_bounded_witness :
    6 ≤ ([1000, 1050, 1100, 1080, 1120, 1150, 1130, 1160, 1180] : List ℚ).length ∧
      |appliedGrowth [1000, 1050, 1100, 1080, 1120, 1150, 1130, 1160, 1180]| ≤ 3/100 :=
  ⟨by decide,
    (c6_applied_growth_bounded [1000, 1050, 1100, 1080, 1120, 1150, 1130, 1160, 1180]
      (by decide)).2.2.2⟩

/-- C7: when fewer than 6 monthly rows remain after partial-month filtering
the forecast engine returns the explicit insufficient-data outcome, which is
distinct from every successful (in particular zero-valued) forecast and from
the error outcome — no forecast rows and no exception are produced. -/
theorem c7_insufficient_data (rows : List MonthRow)
    (hlen : (filterPartial rows).length < 6) :
    createForecast rows = ForecastOutcome.insufficientData ∧
      (∀ frows g, ForecastOutcome.ok frows g ≠ ForecastOutcome.insufficientData) ∧
      ForecastOutcome.nameError ≠ ForecastOutcome.insufficientData := by
  refine ⟨?_, fun frows g => by simp, by simp⟩
  rw [createForecast]
  simp only [if_neg (by omega : ¬ 6 ≤ (filterPartial rows).length)]

/-- C7 (witness): the theorem applied to a 2-month series (too short for the
partial-month filter to engage, and below the 6-month requirement). -/
theorem c7_insufficient_data_witness :
    (filterPartial [⟨"2024-01", 1000, 20⟩, ⟨"2024-02", 1100, 22⟩]).length < 6 ∧
      createForecast [⟨"2024-01", 1000, 20⟩, ⟨"2024-02", 1100, 22⟩] =
        ForecastOutcome.insufficientData :=
  ⟨by decide,
    (c7_insufficient_data [⟨"2024-01", 1000, 20⟩, ⟨"2024-02", 1100, 22⟩] (by decide)).1⟩

/-! ### Category-totals percentages

`rebuild_summary_sheets` (daily, lines 336-349) and `run` (historical,
lines 444-460 and 519-535): per-group revenue totals, the grand total as
their sum, and each row's `% of Revenue` =
`revenue / grand_total * 100 if grand_total > 0 else 0`, displayed with one
decimal.  The grouping key is the category (or, in the historical mega
table, the mega-category), so the group key is a parameter here. -/

/-- The revenue totals of the groups of `l` under the grouping key, one per
distinct key value (a `defaultdict` keyed by `key`, summing prices). -/
def groupRevenues (key : Appt → String) (l : List Appt) : List ℚ :=
  ((l.map key).dedup).map (fun c =>
    ((l.filter (fun a => decide (key a = c))).map Appt.price).sum)

/-- `grand_total_revenue = sum(cat["revenue"] for cat in totals.values())`. -/
def grandTotal (key : Appt → String) (l : List Appt) : ℚ :=
  (groupRevenues key l).sum

/-- The revenue column in sheet order
(`sorted(totals.items(), key=lambda x: x[1]["revenue"], reverse=True)`). -/
def sortedRevenues (key : Appt → String) (l : List Appt) : List ℚ :=
  (groupRevenues key l).insertionSort (fun a b => b ≤ a)

/-- The `% of Revenue` column. -/
def pcts (key : Appt → String) (l : List Appt) : List ℚ :=
  (sortedRevenues key l).map (fun r =>
    if 0 < grandTotal key l then r / grandTotal key l * 100 else 0)

theorem sum_map_ratio (l : List ℚ) (T : ℚ) :
    (l.map (fun r => r / T * 100)).sum = l.sum * (100 / T) := by
  induction l with
  | nil => simp
  | cons a t ih => simp only [List.map_cons, List.sum_cons, ih]; ring

theorem sum_map_close (f : ℚ → ℚ) (c : ℚ) (h : ∀ x, |f x - x| ≤ c)
    (l : List ℚ) : |(l.map f).sum - l.sum| ≤ l.length * c := by
  induction l with
  | nil => simp
  | cons a t ih =>
    simp only [List.map_cons, List.sum_cons, List.length_cons]
    have hsplit : f a + (t.map f).sum - (a + t.sum) =
        (f a - a) + ((t.map f).sum - t.sum) := by ring
    rw [hsplit]
    calc |(f a - a) + ((t.map f).sum - t.sum)|
        ≤ |f a - a| + |(t.map f).sum - t.sum| := abs_add _ _
      _ ≤ c + t.length * c := add_le_add (h a) ih
      _ = (t.length + 1) * c := by ring
      _ = ((t.length + 1 : ℕ) : ℚ) * c := by push_cast; ring

/-- C8: whenever the grand total revenue is positive, the computed `% of
Revenue` values over the group rows (category or mega-category) sum to
exactly 100, and the displayed one-decimal values sum to 100 within the
rounding tolerance of 0.05 per row; when the grand total is 0 every row's
percentage is 0. -/
theorem c8_percentages_sum (key : Appt → String) (l : List Appt) :
    (0 < grandTotal key l →
      (pcts key l).sum = 100 ∧
      |((pcts key l).map dpct).sum - 100| ≤ (pcts key l).length * (1/20)) ∧
    (grandTotal key l = 0 → ∀ p ∈ pcts key l, p = 0) := by
  constructor
  · intro h
    have hT : grandTotal key l ≠ 0 := ne_of_gt h
    have hperm : (sortedRevenues key l).Perm (groupRevenues key l) :=
      List.perm_insertionSort _ _
    have hsum : (pcts key l).sum = 100 := by
      rw [pcts]
      simp only [if_pos h]
      rw [sum_map_ratio, hperm.sum_eq]
      rw [show (groupRevenues key l).sum = grandTotal key l from rfl]
      field_simp
    refine ⟨hsum, ?_⟩
    have hclose := sum_map_close dpct (1/20) dpct_abs_sub (pcts key l)
    rw [hsum] at hclose
    exact hclose
  · intro h p hp
    rw [pcts, List.mem_map] at hp
    obtain ⟨r, _, rfl⟩ := hp
    simp [h]

/-- C8 (witness): the theorem applied to a one-appointment store (grand
total 100, a single 100% row) and to the empty store (grand total 0). -/
theorem c8_percentages_sum_witness :
    0 < grandTotal Appt.category [apptA] ∧
      (pcts Appt.category [apptA]).sum = 100 ∧
      grandTotal Appt.category [] = 0 ∧
      ∀ p ∈ pcts Appt.category [], p = 0 := by
  have h1 : grandTotal Appt.category [apptA] = 100 := by
    simp [grandTotal, groupRevenues, apptA]
  have h0 : grandTotal Appt.category ([] : List Appt) = 0 := by
    simp [grandTotal, groupRevenues]
  refine ⟨by rw [h1]; norm_num, ?_, h0, ?_⟩
  · exact ((c8_percentages_sum Appt.category [apptA]).1 (by rw [h1]; norm_num)).1
  · exact (c8_percentages_sum Appt.category []).2 h0

/-- C9: the two classifiers are not equivalent: on the service name
`"ProBrows"` the daily table's first matching rule is `("Pensat",
`Pensat|ProBrows`)` while the historical table's is `("ProBrows",
`ProBrows`)`, so the two scripts return different categories. -/
theorem c9_classifiers_disagree_on_ProBrows :
    extractCategoryDaily "ProBrows" = "Pensat" ∧
      extractCategoryHist "ProBrows" = "ProBrows" ∧
      extractCategoryDaily "ProBrows" ≠ extractCategoryHist "ProBrows" := by
  refine ⟨by decide, by decide, by decide⟩

end Mero
